import Mathlib

/-!
Shallow embedding of the identity-service core:
role-conditioned user views, the row mapper (anti-corruption layer),
the credential service, the authorization-context resolver and the
access-controlled user service, translated from the TypeScript source
(`effect` Schema classes, the Drizzle-backed repository, the auth
middleware and the user service).
-/

namespace Spec2Proof

/-! ## Roles (src/auth/domain/role.schema.ts) -/

/-- `RoleName = Schema.Literal('admin', 'user')`. -/
inductive RoleName
  | admin
  | user
  deriving DecidableEq, Repr

/-- The role literal string, as carried in JWT payloads and `generateToken`. -/
def RoleName.str : RoleName → String
  | .admin => "admin"
  | .user => "user"

/-- `Schema.decodeUnknown(RoleName)` on a raw string. -/
def decodeRole (s : String) : Option RoleName :=
  if s = "admin" then some .admin
  else if s = "user" then some .user
  else none

/-! ## Errors (shared/errors): tagged error classes.
`DatabaseError` also carries an opaque `cause` in the source, used only for
logging; the model keeps the message. -/

inductive AppError
  | authenticationError (message : String)
  | unauthorizedError (message : String)
  | forbiddenError (message : String)
  | notFoundError (entity : String) (id : String)
  | databaseError (message : String)
  deriving DecidableEq, Repr

/-! ## Field validation (effect Schema filters, src/user/domain/user.schema.ts) -/

/-- Split a character list at every occurrence of `sep` (the semantics of
`String.split` on a one-character separator: `n` separators give `n + 1`
pieces, empty pieces included). -/
def splitOnChar (sep : Char) : List Char → List (List Char)
  | [] => [[]]
  | c :: rest =>
      match splitOnChar sep rest with
      | [] => if c = sep then [[], [c]] else [[c]]
      | g :: gs => if c = sep then [] :: g :: gs else (c :: g) :: gs

/-- A character allowed in either side of the email pattern
`^[^\s@]+@[^\s@]+\.[^\s@]+$`: anything but whitespace (`@` is excluded by
the split on `@`). -/
def emailChar (c : Char) : Bool := !c.isWhitespace

/-- The domain side `[^\s@]+\.[^\s@]+` of the email pattern: some `.` occurs
that is neither the first nor the last character. -/
def hasInnerDot (d : List Char) : Bool :=
  ((d.drop 1).dropLast).contains '.'

/-- `Schema.pattern(/^[^\s@]+@[^\s@]+\.[^\s@]+$/)` on `email`. -/
def emailValid (s : String) : Bool :=
  match splitOnChar '@' s.data with
  | [a, d] =>
      !a.isEmpty && !d.isEmpty && a.all emailChar && d.all emailChar
        && hasInnerDot d
  | _ => false

/-- `Schema.minLength(1)` and `Schema.maxLength(255)` on `name`. -/
def nameValid (s : String) : Bool :=
  1 ≤ s.length && s.length ≤ 255

/-- Hex digit, case-insensitive, as in the `Schema.UUID` pattern. -/
def isHex (c : Char) : Bool :=
  c.isDigit || ('a' ≤ c && c ≤ 'f') || ('A' ≤ c && c ≤ 'F')

/-- `Schema.UUID`: the 8-4-4-4-12 lowercase/uppercase hex shape. -/
def uuidValid (s : String) : Bool :=
  match splitOnChar '-' s.data with
  | [a, b, c, d, e] =>
      a.length = 8 && b.length = 4 && c.length = 4 && d.length = 4
        && e.length = 12 && (a ++ b ++ c ++ d ++ e).all isHex
  | _ => false

/-- `Schema.pattern(/^\d{3}-\d{2}-\d{4}$/)` on `ssn`. -/
def ssnValid (s : String) : Bool :=
  match s.data with
  | [a, b, c, '-', d, e, '-', f, g, h, i] =>
      [a, b, c, d, e, f, g, h, i].all Char.isDigit
  | _ => false

/-- `Schema.minLength(8)` on `password`. -/
def passwordValid (s : String) : Bool := 8 ≤ s.length

/-! ## JavaScript numbers and `parseFloat`
`toFullUser` runs `parseFloat` on the stored salary string; the result is a
JS number, which may be `NaN` or an infinity, so the model distinguishes
those from finite rationals. -/

inductive JsNum
  | nan
  | posInf
  | negInf
  | fin (q : ℚ)
  deriving DecidableEq, Repr

/-- `x >= 0` on a JS number: false for `NaN` and `-Infinity`. -/
def JsNum.ge0 : JsNum → Bool
  | .nan => false
  | .posInf => true
  | .negInf => false
  | .fin q => 0 ≤ q

/-- Value of a digit run. -/
def digitsVal (ds : List Char) : Nat :=
  ds.foldl (fun n c => 10 * n + (c.toNat - 48)) 0

/-- Value of a digit run read as a fractional part. -/
def fracVal (ds : List Char) : ℚ :=
  (digitsVal ds : ℚ) / (10 ^ ds.length : ℚ)

/-- Exponent suffix of a JS decimal literal (`e`/`E`, optional sign, digits);
`0` when absent or malformed, since `parseFloat` then stops before the `e`. -/
def parseExp (cs : List Char) : Int :=
  match cs with
  | 'e' :: rest | 'E' :: rest =>
    match rest with
    | '+' :: ds =>
        let d := ds.takeWhile Char.isDigit
        if d.isEmpty then 0 else (digitsVal d : Int)
    | '-' :: ds =>
        let d := ds.takeWhile Char.isDigit
        if d.isEmpty then 0 else -(digitsVal d : Int)
    | ds =>
        let d := ds.takeWhile Char.isDigit
        if d.isEmpty then 0 else (digitsVal d : Int)
  | _ => 0

/-- `10 ^ e` over ℚ for an integer exponent. -/
def qpow10 (e : Int) : ℚ := (10 : ℚ) ^ e

/-- Unsigned mantissa (with exponent) of a JS decimal literal:
`Digits [. Digits] [Exp]` or `. Digits [Exp]`; `none` when no digit is
consumed (`parseFloat` returns `NaN`). -/
def parseMantissa (cs : List Char) : Option ℚ :=
  let intDs := cs.takeWhile Char.isDigit
  let rest1 := cs.dropWhile Char.isDigit
  if intDs.isEmpty then
    match rest1 with
    | '.' :: rest2 =>
        let fr := rest2.takeWhile Char.isDigit
        let rest3 := rest2.dropWhile Char.isDigit
        if fr.isEmpty then none
        else some (fracVal fr * qpow10 (parseExp rest3))
    | _ => none
  else
    match rest1 with
    | '.' :: rest2 =>
        let fr := rest2.takeWhile Char.isDigit
        let rest3 := rest2.dropWhile Char.isDigit
        some (((digitsVal intDs : ℚ) + fracVal fr) * qpow10 (parseExp rest3))
    | _ => some ((digitsVal intDs : ℚ) * qpow10 (parseExp rest1))

/-- Signed body after whitespace skipping: `Infinity` or a decimal literal. -/
def parseSignedFloat (cs : List Char) (neg : Bool) : JsNum :=
  if cs.take 8 = "Infinity".data then
    if neg then .negInf else .posInf
  else
    match parseMantissa cs with
    | none => .nan
    | some q => .fin (if neg then -q else q)

/-- JavaScript `parseFloat`: skip leading whitespace, optional sign, then the
longest decimal-literal (or `Infinity`) prefix; `NaN` when none. -/
def parseFloatJS (s : String) : JsNum :=
  match s.data.dropWhile Char.isWhitespace with
  | '+' :: rest => parseSignedFloat rest false
  | '-' :: rest => parseSignedFloat rest true
  | rest => parseSignedFloat rest false

/-! ## Storage rows (src/user/infrastructure/user.table.ts)
`UserRow = typeof usersTable.$inferSelect`: salary (`numeric`) and ssn are
nullable and salary is serialized as a string; timestamps are opaque here. -/

structure UserRow where
  id : String
  name : String
  email : String
  role : String
  isActive : Bool
  password : String
  salary : Option String
  ssn : Option String
  createdAt : Nat
  updatedAt : Nat
  deriving DecidableEq, Repr

/-! ## Domain models (src/user/domain/user.schema.ts) -/

/-- `BaseUser` Schema class: the role-`user` view; carries no salary/ssn
field at all. -/
structure BaseUser where
  id : String
  email : String
  name : String
  role : RoleName
  isActive : Bool
  createdAt : Nat
  updatedAt : Nat
  deriving DecidableEq, Repr

/-- `FullUser = BaseUser.extend(SensitiveUserData.fields)`: the admin view. -/
structure FullUser extends BaseUser where
  salary : Option JsNum
  ssn : Option String
  deriving DecidableEq, Repr

/-- `UserWithPassword = FullUser.extend({password})`: auth-only view. -/
structure UserWithPassword extends FullUser where
  password : String
  deriving DecidableEq, Repr

/-- The role-conditioned return type `UserByRole<R>` rendered as a sum. -/
inductive UserView
  | base (u : BaseUser)
  | full (u : FullUser)
  deriving DecidableEq, Repr

/-! ## Row mapper (src/user/infrastructure/user.mappers.ts) -/

/-- `Schema.decodeUnknown(BaseUser)` on the seven fields the mapper copies
out of the row: every field filter must pass. -/
def decodeBaseFields (row : UserRow) : Option BaseUser :=
  match decodeRole row.role with
  | none => none
  | some r =>
      if uuidValid row.id && emailValid row.email && nameValid row.name then
        some ⟨row.id, row.email, row.name, r, row.isActive,
              row.createdAt, row.updatedAt⟩
      else none

/-- The salary value the mapper feeds to the schema:
`row.salary ? parseFloat(row.salary) : null` — `null` and the (falsy) empty
string become `null`; anything else goes through `parseFloat`. -/
def salaryInput (s : Option String) : Option JsNum :=
  match s with
  | none => none
  | some str => if str = "" then none else some (parseFloatJS str)

/-- The `SensitiveUserData` field filters:
`salary : NullOr(Number ≥ 0)`, `ssn : NullOr(pattern DDD-DD-DDDD)`. -/
def decodeSensitive (salary : Option JsNum) (ssn : Option String) : Bool :=
  (match salary with | none => true | some j => j.ge0)
    && (match ssn with | none => true | some s => ssnValid s)

namespace UserMapper

/-- `UserMapper.toBaseUser`: decode the row's base fields, wrapping any
decode failure as a `DatabaseError`. -/
def toBaseUser (row : UserRow) : Except AppError BaseUser :=
  match decodeBaseFields row with
  | some u => .ok u
  | none =>
      .error (.databaseError
        "Failed to map database row to BaseUser domain model")

/-- `UserMapper.toFullUser`: base fields plus
`salary: row.salary ? parseFloat(row.salary) : null` and `ssn: row.ssn`,
decoded as a `FullUser`. -/
def toFullUser (row : UserRow) : Except AppError FullUser :=
  let sal := salaryInput row.salary
  match decodeBaseFields row with
  | some b =>
      if decodeSensitive sal row.ssn then .ok ⟨b, sal, row.ssn⟩
      else
        .error (.databaseError
          "Failed to map database row to FullUser domain model")
  | none =>
      .error (.databaseError
        "Failed to map database row to FullUser domain model")

/-- `UserMapper.toUserWithPassword`: the `FullUser` fields plus the hashed
password (min length 8). -/
def toUserWithPassword (row : UserRow) : Except AppError UserWithPassword :=
  let sal := salaryInput row.salary
  match decodeBaseFields row with
  | some b =>
      if decodeSensitive sal row.ssn && passwordValid row.password then
        .ok ⟨⟨b, sal, row.ssn⟩, row.password⟩
      else
        .error (.databaseError
          "Failed to map database row to UserWithPassword domain model")
  | none =>
      .error (.databaseError
        "Failed to map database row to UserWithPassword domain model")

/-- `UserMapper.toUserByRole`: `'admin'` selects `toFullUser`, anything else
`toBaseUser` — selection is by the requesting role only. -/
def toUserByRole (row : UserRow) (requestingRole : RoleName) :
    Except AppError UserView :=
  match requestingRole with
  | .admin => (toFullUser row).map .full
  | .user => (toBaseUser row).map .base

/-- `UserMapper.toUsersByRole`: `Effect.all` over the row-wise mapping —
sequential, fail-fast, order-preserving. -/
def toUsersByRole (rows : List UserRow) (requestingRole : RoleName) :
    Except AppError (List UserView) :=
  match rows with
  | [] => .ok []
  | row :: rest => do
      let u ← toUserByRole row requestingRole
      let us ← toUsersByRole rest requestingRole
      pure (u :: us)

end UserMapper

/-! ## Repository (src/user/infrastructure/user.repository.ts)
Storage is modelled as the list of rows the Drizzle queries run over; the
`where` clauses become `find?`/`filter` and the mapper is applied as in the
source. Driver failures (`Effect.tryPromise` rejections) are out of the
read models here; the write models take the driver result explicitly. -/

namespace UserRepository

/-- `findById`: select by id, `rows[0]`, then `toUserByRole`. -/
def findById (store : List UserRow) (userId : String)
    (requestingRole : RoleName) : Except AppError (Option UserView) :=
  match store.find? (fun row => row.id = userId) with
  | none => .ok none
  | some row => (UserMapper.toUserByRole row requestingRole).map some

/-- `findAll`: select the active rows, then `toUsersByRole`. -/
def findAll (store : List UserRow) (requestingRole : RoleName) :
    Except AppError (List UserView) :=
  UserMapper.toUsersByRole (store.filter (fun row => row.isActive))
    requestingRole

/-- `findByEmail`: select by email, `rows[0]`, then `toUserWithPassword`. -/
def findByEmail (store : List UserRow) (email : String) :
    Except AppError (Option UserWithPassword) :=
  match store.find? (fun row => row.email = email) with
  | none => .ok none
  | some row => (UserMapper.toUserWithPassword row).map some

/-- The `updates` object built by `update`: `if (data.name)` and
`if (data.email)` — JS truthiness, so an empty string counts as absent. -/
def profileUpdates (name email : Option String) : List (String × String) :=
  (match name with
    | some n => if n ≠ "" then [("name", n)] else []
    | none => [])
  ++ (match email with
    | some e => if e ≠ "" then [("email", e)] else []
    | none => [])

/-- The `updates` object built by `updateSensitive`: fields set whenever the
patch field is not `undefined` (outer `Option`); `null` is written through. -/
def sensitiveUpdates (salary : Option (Option ℚ)) (ssn : Option (Option String)) :
    List String :=
  (match salary with | some _ => ["salary"] | none => [])
    ++ (match ssn with | some _ => ["ssn"] | none => [])

end UserRepository

/-! ## DTOs for updates (src/user/domain/user.schema.ts)
`UpdateUserProfile` and `UpdateSensitiveData` are the payload schemas the
HTTP endpoints decode: plain `Schema.optional(Schema.String)` /
`Schema.optional(Schema.NullOr(Schema.Number))` — no field filters. -/

structure UpdateUserProfile where
  name : Option String
  email : Option String
  deriving DecidableEq, Repr

structure UpdateSensitiveData where
  salary : Option (Option ℚ)
  ssn : Option (Option String)
  deriving DecidableEq, Repr

/-- `Schema.decodeUnknown(UpdateUserProfile)`: both fields are optional
unconstrained strings, so decoding a record of optional strings always
succeeds — no email-pattern or name-length filter is attached. -/
def decodeUpdateUserProfile (name email : Option String) :
    Option UpdateUserProfile :=
  some ⟨name, email⟩

namespace UserRepository

/-- `update`: build `updates` from the truthy patch fields; when empty,
return `false` without touching the database; otherwise run the update,
`dbRows` being the driver's result length (`none` models a rejected
promise, caught as a `DatabaseError`). The first component records whether
the database call was made. -/
def update (userId : String) (data : UpdateUserProfile)
    (dbRows : Option Nat) : Bool × Except AppError Bool :=
  let updates := profileUpdates data.name data.email
  if updates.isEmpty then (false, .ok false)
  else
    match dbRows with
    | none =>
        (true, .error (.databaseError "Failed to update user in database"))
    | some n => (true, .ok (decide (0 < n)))

/-- `updateSensitive`: same shape over the sensitive patch. -/
def updateSensitive (userId : String) (data : UpdateSensitiveData)
    (dbRows : Option Nat) : Bool × Except AppError Bool :=
  let updates := sensitiveUpdates data.salary data.ssn
  if updates.isEmpty then (false, .ok false)
  else
    match dbRows with
    | none =>
        (true,
          .error (.databaseError "Failed to update sensitive data in database"))
    | some n => (true, .ok (decide (0 < n)))

end UserRepository

/-! ## Access-controlled user service (src/user/application/user.service.ts) -/

namespace UserService

/-- `getUser(userId, requestingRole, requestingUserId)`: a `user`-role
caller may only view their own profile; then fetch by id, `None` becoming a
`NotFoundError`. -/
def getUser (store : List UserRow) (userId : String)
    (requestingRole : RoleName) (requestingUserId : String) :
    Except AppError UserView :=
  if requestingRole = .user && requestingUserId ≠ userId then
    .error (.forbiddenError "Users can only view their own profile")
  else
    match UserRepository.findById store userId requestingRole with
    | .error e => .error e
    | .ok none => .error (.notFoundError "User" userId)
    | .ok (some u) => .ok u

/-- `getAllUsers(requestingRole, requestingUserId)`: delegates straight to
`repo.findAll` — no per-caller filtering. -/
def getAllUsers (store : List UserRow) (requestingRole : RoleName)
    (requestingUserId : String) : Except AppError (List UserView) :=
  UserRepository.findAll store requestingRole

/-- `updateProfile(userId, data, requestingRole, requestingUserId)`:
a `user`-role caller may only update themselves; then `repo.update`.
The first component records whether storage was reached. -/
def updateProfile (userId : String) (data : UpdateUserProfile)
    (requestingRole : RoleName) (requestingUserId : String)
    (dbRows : Option Nat) : Bool × Except AppError Bool :=
  if requestingRole = .user && requestingUserId ≠ userId then
    (false, .error (.forbiddenError "Cannot update other users"))
  else UserRepository.update userId data dbRows

/-- `updateSensitiveData(userId, data, requestingRole, requestingUserId)`:
only `admin` proceeds; everyone else gets `ForbiddenError` before any
storage access. -/
def updateSensitiveData (userId : String) (data : UpdateSensitiveData)
    (requestingRole : RoleName) (requestingUserId : String)
    (dbRows : Option Nat) : Bool × Except AppError Bool :=
  if requestingRole ≠ .admin then
    (false, .error (.forbiddenError "Admin access required"))
  else UserRepository.updateSensitive userId data dbRows

end UserService

/-! ## Auth context and middleware (src/auth/domain, src/shared/middleware) -/

/-- `AuthContext` Schema class: `{userId: Schema.UUID, role: RoleName}`. -/
structure AuthContext where
  userId : String
  role : RoleName
  deriving DecidableEq, Repr

/-- `Schema.decodeUnknown(AuthContext)` on an id string and an
already-typed role value: the UUID pattern is the only filter. -/
def decodeAuthContext (userId : String) (role : RoleName) :
    Option AuthContext :=
  if uuidValid userId then some ⟨userId, role⟩ else none

/-- The JWT payload shape `{userId, email, role}` as signed by
`generateToken` and produced by `jwt.verify`. -/
structure JWTPayload where
  userId : String
  email : String
  role : String
  deriving DecidableEq, Repr

/-- `verifyJwt` (AuthMiddleware.ts): the authorization-context resolver.
`verify` is the external `jwt.verify(token, secret)` primitive (`none` =
throw: invalid signature or expired). The context is built from the freshly
loaded repository record — `payload.userId`/`payload.role` are never used
for it. -/
def verifyJwt (verify : String → Option JWTPayload)
    (store : List UserRow) (token : String) : Except AppError AuthContext :=
  if token = "" then
    .error (.authenticationError "Missing authorization token")
  else
    match verify token with
    | none => .error (.authenticationError "Invalid or expired token")
    | some payload =>
        match UserRepository.findByEmail store payload.email with
        | .error e => .error e
        | .ok none => .error (.authenticationError "User not found")
        | .ok (some user) =>
            if !user.isActive then
              .error (.authenticationError "User account is inactive")
            else
              match decodeAuthContext user.id user.role with
              | none => .error (.authenticationError "Invalid auth context")
              | some ctx => .ok ctx

/-- `withAuth` (AuthMiddleware.ts, the export the handlers use): takes the
Bearer-stripped token; an empty token fails `Unauthorized "No token"`,
any other token gets the hard-coded context decoded with `Effect.orDie`
(the decode of the constant succeeds, so the die branch is unreachable).
No verification and no repository access occur. -/
def withAuth (token : String) : Except AppError AuthContext :=
  if token = "" then .error (.unauthorizedError "No token")
  else
    match decodeAuthContext "550e8400-e29b-41d4-a716-446655440000"
        .admin with
    | some ctx => .ok ctx
    | none => .error (.databaseError "unreachable: Effect.orDie defect")

/-! ## Credential service (AuthServiceLive, index.ts) -/

/-- `generateToken(userId, email, role)`: sign `{userId, email, role}` with
the configured secret and expiry via the external `jwt.sign`; a throw
(`none`) becomes a fatal `AuthenticationError`. -/
def generateToken (sign : JWTPayload → Option String)
    (userId email role : String) : Except AppError String :=
  match sign ⟨userId, email, role⟩ with
  | none => .error (.authenticationError "Failed to generate token")
  | some t => .ok t

/-- `login(email, password)`: look up by email (absent → generic invalid
credentials), reject inactive accounts, compare the password against the
stored hash with the external `bcrypt.compare` (never throws), mismatch →
the same generic message, then issue a token. -/
def login (compare : String → String → Bool)
    (sign : JWTPayload → Option String) (store : List UserRow)
    (email password : String) : Except AppError String :=
  match UserRepository.findByEmail store email with
  | .error e => .error e
  | .ok none => .error (.authenticationError "Invalid email or password")
  | .ok (some user) =>
      if !user.isActive then
        .error (.authenticationError "User account is inactive")
      else if !(compare password user.password) then
        .error (.authenticationError "Invalid email or password")
      else
        generateToken sign user.id user.email user.role.str

/-! ## Spec-side comparison definitions
These two render the spec's words, for comparison with the code's
behaviour; they are deliberately not taken from the source. -/

/-- The spec's "a valid non-negative number" for a stored salary string: a
plain decimal numeral `digits` or `digits.digits` spanning the whole
string (the serialization of a non-negative `numeric` column). -/
def specValidNonNegNumeral (s : String) : Bool :=
  match splitOnChar '.' s.data with
  | [a] => !a.isEmpty && a.all Char.isDigit
  | [a, b] =>
      !a.isEmpty && !b.isEmpty && a.all Char.isDigit
        && b.all Char.isDigit
  | _ => false

/-- The spec's Validation Core field rules for a profile patch: present
email matches the email pattern, present name has length 1–255. -/
def specProfilePatchFieldRules (data : UpdateUserProfile) : Bool :=
  (match data.email with | some e => emailValid e | none => true)
    && (match data.name with | some n => nameValid n | none => true)

/-! ## Concrete values used by witnesses and counterexamples -/

def annId : String := "550e8400-e29b-41d4-a716-446655440000"

/-- A well-formed storage row. -/
def rowAnn : UserRow :=
  { id := annId, name := "Ann", email := "a@b.com", role := "admin",
    isActive := true, password := "password123", salary := none,
    ssn := none, createdAt := 0, updatedAt := 0 }

def baseAnn : BaseUser :=
  ⟨annId, "a@b.com", "Ann", .admin, true, 0, 0⟩

def fullAnn : FullUser := ⟨baseAnn, none, none⟩

def annUser : UserWithPassword := ⟨fullAnn, "password123"⟩

/-- `rowAnn` with the salary column serialized as the empty string. -/
def rowEmptySalary : UserRow := { rowAnn with salary := some "" }

/-- `rowAnn` with a salary string that has no numeric prefix. -/
def rowBadSalary : UserRow := { rowAnn with salary := some "abc" }

/-- `rowAnn` with a role string outside the `{admin, user}` enum. -/
def rowBadRole : UserRow := { rowAnn with role := "superadmin" }

/-- A JWT payload claiming role `user` (the stored role is `admin`). -/
def wPayload : JWTPayload := ⟨"attacker-chosen", "a@b.com", "user"⟩

/-! ## Helper lemmas -/

theorem except_map_ok {ε α β : Type} (f : α → β) (e : Except ε α) (v : β) :
    e.map f = .ok v ↔ ∃ a, e = .ok a ∧ f a = v := by
  cases e <;> simp [Except.map]

theorem except_bind_ok {ε α β : Type} (e : Except ε α) (f : α → Except ε β)
    (v : β) : e.bind f = .ok v ↔ ∃ a, e = .ok a ∧ f a = .ok v := by
  cases e <;> simp [Except.bind]

theorem toUserByRole_user_shape (row : UserRow) (v : UserView) :
    UserMapper.toUserByRole row .user = .ok v → ∃ bu, v = .base bu := by
  intro h
  rw [UserMapper.toUserByRole, except_map_ok] at h
  obtain ⟨a, _, hv⟩ := h
  exact ⟨a, hv.symm⟩

theorem toUserByRole_admin_shape (row : UserRow) (v : UserView) :
    UserMapper.toUserByRole row .admin = .ok v → ∃ fu, v = .full fu := by
  intro h
  rw [UserMapper.toUserByRole, except_map_ok] at h
  obtain ⟨a, _, hv⟩ := h
  exact ⟨a, hv.symm⟩

theorem findById_ok_shape (store : List UserRow) (userId : String)
    (r : RoleName) (v : UserView) :
    UserRepository.findById store userId r = .ok (some v) →
      ∃ row, UserMapper.toUserByRole row r = .ok v := by
  intro h
  rw [UserRepository.findById] at h
  cases hf : store.find? (fun row => row.id = userId) with
  | none => rw [hf] at h; exact absurd h (by simp)
  | some row =>
      rw [hf, except_map_ok] at h
      obtain ⟨a, ha, hv⟩ := h
      exact ⟨row, by rw [ha]; exact congrArg Except.ok (Option.some.injEq .. ▸ hv)⟩

theorem getUser_ok_shape (store : List UserRow) (targetId : String)
    (r : RoleName) (reqId : String) (v : UserView) :
    UserService.getUser store targetId r reqId = .ok v →
      ∃ row, UserMapper.toUserByRole row r = .ok v := by
  intro h
  rw [UserService.getUser] at h
  split at h
  · exact absurd h (by simp)
  · cases hf : UserRepository.findById store targetId r with
    | error e => rw [hf] at h; exact absurd h (by simp)
    | ok o =>
        cases o with
        | none => rw [hf] at h; exact absurd h (by simp)
        | some u =>
            rw [hf] at h
            have hv : u = v := by exact Except.ok.inj h
            exact hv ▸ findById_ok_shape store targetId r u hf

theorem toUsersByRole_cons (row : UserRow) (rest : List UserRow)
    (r : RoleName) :
    UserMapper.toUsersByRole (row :: rest) r =
      (UserMapper.toUserByRole row r).bind (fun u =>
        (UserMapper.toUsersByRole rest r).bind (fun us => .ok (u :: us))) := by
  rfl

theorem toUsersByRole_ok_pointwise (rows : List UserRow) (r : RoleName) :
    ∀ l, UserMapper.toUsersByRole rows r = .ok l →
      l.length = rows.length ∧
        ∀ i (h1 : i < rows.length) (h2 : i < l.length),
          UserMapper.toUserByRole (rows.get ⟨i, h1⟩) r = .ok (l.get ⟨i, h2⟩) := by
  induction rows with
  | nil =>
      intro l hl
      rw [UserMapper.toUsersByRole] at hl
      have : ([] : List UserView) = l := Except.ok.inj hl
      subst this
      exact ⟨rfl, by intro i h1 _; exact absurd h1 (by simp)⟩
  | cons row rest ih =>
      intro l hl
      rw [toUsersByRole_cons, except_bind_ok] at hl
      obtain ⟨u, hu, hrest⟩ := hl
      rw [except_bind_ok] at hrest
      obtain ⟨us, hus, hcons⟩ := hrest
      have hl2 : u :: us = l := Except.ok.inj hcons
      subst hl2
      obtain ⟨hlen, hpt⟩ := ih us hus
      refine ⟨by simpa using hlen, ?_⟩
      intro i h1 h2
      cases i with
      | zero => simpa using hu
      | succ j =>
          have hj1 : j < rest.length := by simpa using h1
          have hj2 : j < us.length := by simpa using h2
          simpa using hpt j hj1 hj2

theorem toUsersByRole_ok_mem (rows : List UserRow) (r : RoleName) :
    ∀ l, UserMapper.toUsersByRole rows r = .ok l →
      ∀ v ∈ l, ∃ row ∈ rows, UserMapper.toUserByRole row r = .ok v := by
  induction rows with
  | nil =>
      intro l hl v hv
      rw [UserMapper.toUsersByRole] at hl
      have : ([] : List UserView) = l := Except.ok.inj hl
      subst this
      exact absurd hv (by simp)
  | cons row rest ih =>
      intro l hl v hv
      rw [toUsersByRole_cons, except_bind_ok] at hl
      obtain ⟨u, hu, hrest⟩ := hl
      rw [except_bind_ok] at hrest
      obtain ⟨us, hus, hcons⟩ := hrest
      have hl2 : u :: us = l := Except.ok.inj hcons
      subst hl2
      rcases List.mem_cons.mp hv with hv0 | hvtail
      · exact ⟨row, List.mem_cons_self .., hv0 ▸ hu⟩
      · obtain ⟨row2, hrow2, hmap⟩ := ih us hus v hvtail
        exact ⟨row2, List.mem_cons_of_mem _ hrow2, hmap⟩

theorem toUsersByRole_error_of_mem (rows : List UserRow) (r : RoleName) :
    ∀ row e, row ∈ rows → UserMapper.toUserByRole row r = .error e →
      ∃ e2, UserMapper.toUsersByRole rows r = .error e2 := by
  induction rows with
  | nil => intro row e h _; exact absurd h (by simp)
  | cons row0 rest ih =>
      intro row e hmem herr
      rcases List.mem_cons.mp hmem with h0 | htail
      · refine ⟨e, ?_⟩
        rw [toUsersByRole_cons, h0.symm, herr]
        rfl
      · cases hu : UserMapper.toUserByRole row0 r with
        | error e0 =>
            refine ⟨e0, ?_⟩
            rw [toUsersByRole_cons, hu]
            rfl
        | ok u =>
            obtain ⟨e2, he2⟩ := ih row e htail herr
            refine ⟨e2, ?_⟩
            rw [toUsersByRole_cons, hu, he2]
            rfl

theorem decodeBaseFields_uuid (row : UserRow) (b : BaseUser) :
    decodeBaseFields row = some b → uuidValid b.id = true := by
  cases hr : decodeRole row.role with
  | none => simp [decodeBaseFields, hr]
  | some r =>
      by_cases hc :
          (uuidValid row.id && emailValid row.email && nameValid row.name)
            = true
      · simp only [decodeBaseFields, hr, if_pos hc, Option.some.injEq]
        intro hb
        simp only [Bool.and_eq_true] at hc
        rw [← hb]
        exact hc.1.1
      · simp [decodeBaseFields, hr, hc]

theorem toUserWithPassword_ok_base (row : UserRow) (u : UserWithPassword) :
    UserMapper.toUserWithPassword row = .ok u →
      decodeBaseFields row = some u.toBaseUser := by
  cases hd : decodeBaseFields row with
  | none => simp [UserMapper.toUserWithPassword, hd]
  | some b =>
      by_cases hs :
          (decodeSensitive (salaryInput row.salary) row.ssn
            && passwordValid row.password) = true
      · simp only [UserMapper.toUserWithPassword, hd, if_pos hs,
          Except.ok.injEq]
        intro hu
        rw [← hu]
      · simp [UserMapper.toUserWithPassword, hd, hs]

theorem findByEmail_ok_uuid (store : List UserRow) (email : String)
    (u : UserWithPassword) :
    UserRepository.findByEmail store email = .ok (some u) →
      uuidValid u.id = true := by
  intro h
  rw [UserRepository.findByEmail] at h
  cases hf : store.find? (fun row => row.email = email) with
  | none => rw [hf] at h; exact absurd h (by simp)
  | some row =>
      rw [hf, except_map_ok] at h
      obtain ⟨a, ha, hv⟩ := h
      have hau : a = u := by injection hv
      subst hau
      exact decodeBaseFields_uuid row _ (toUserWithPassword_ok_base row a ha)

theorem toFullUser_ok_base (row : UserRow) (fu : FullUser) :
    UserMapper.toFullUser row = .ok fu →
      decodeBaseFields row = some fu.toBaseUser := by
  cases hd : decodeBaseFields row with
  | none => simp [UserMapper.toFullUser, hd]
  | some b =>
      by_cases hs : decodeSensitive (salaryInput row.salary) row.ssn = true
      · simp only [UserMapper.toFullUser, hd, if_pos hs, Except.ok.injEq]
        intro hu
        rw [← hu]
      · simp [UserMapper.toFullUser, hd, hs]

/-! ## Claim theorems -/

/-- C1: only a caller whose resolved role is `admin` ever receives a
`FullView` or succeeds in mutating sensitive data: `getUser` and
`getAllUsers` return a `FullView` only when the context role is `admin`,
and `updateSensitiveData` succeeds (and reaches storage) only when the
context role is `admin`. -/
theorem admin_only_full_view_and_sensitive_mutation
    (store : List UserRow) (targetId reqId : String) (role : RoleName) :
    (∀ fu, UserService.getUser store targetId role reqId = .ok (.full fu) →
      role = .admin) ∧
    (∀ l (fu : FullUser),
      UserService.getAllUsers store role reqId = .ok l →
        UserView.full fu ∈ l → role = .admin) ∧
    (∀ uid d db b,
      (UserService.updateSensitiveData uid d role reqId db).2 = .ok b →
        role = .admin) ∧
    (∀ uid d db,
      (UserService.updateSensitiveData uid d role reqId db).1 = true →
        role = .admin) := by
  refine ⟨?_, ?_, ?_, ?_⟩
  · intro fu h
    cases role with
    | admin => rfl
    | user =>
        obtain ⟨row, hrow⟩ :=
          getUser_ok_shape store targetId .user reqId (.full fu) h
        obtain ⟨bu, hbu⟩ := toUserByRole_user_shape row _ hrow
        exact absurd hbu (by simp)
  · intro l fu h hmem
    cases role with
    | admin => rfl
    | user =>
        rw [UserService.getAllUsers, UserRepository.findAll] at h
        obtain ⟨row, _, hrow⟩ := toUsersByRole_ok_mem _ .user l h _ hmem
        obtain ⟨bu, hbu⟩ := toUserByRole_user_shape row _ hrow
        exact absurd hbu (by simp)
  · intro uid d db b h
    cases role with
    | admin => rfl
    | user =>
        rw [UserService.updateSensitiveData] at h
        simp at h
  · intro uid d db h
    cases role with
    | admin => rfl
    | user =>
        rw [UserService.updateSensitiveData] at h
        simp at h

theorem admin_only_full_view_and_sensitive_mutation_witness :
    (UserService.getUser [rowAnn] annId .admin annId = .ok (.full fullAnn))
      ∧ RoleName.admin = .admin :=
  ⟨by rfl,
    (admin_only_full_view_and_sensitive_mutation [rowAnn] annId annId
      .admin).1 fullAnn (by rfl)⟩

/-- C2: the authorization-context resolver (`verifyJwt`): empty token →
`AuthenticationError`; failed verification → `AuthenticationError`; the
verified payload's email drives the repository lookup, absent →
`AuthenticationError`; inactive → `AuthenticationError`; otherwise the
context carries the freshly loaded record's id and role (the token's
claims are not used), so a stored role change takes effect immediately. -/
theorem resolver_rederives_role_from_storage
    (verify : String → Option JWTPayload) (store : List UserRow)
    (token : String) :
    (token = "" → verifyJwt verify store token =
      .error (.authenticationError "Missing authorization token")) ∧
    (token ≠ "" → verify token = none → verifyJwt verify store token =
      .error (.authenticationError "Invalid or expired token")) ∧
    (∀ p, token ≠ "" → verify token = some p →
      UserRepository.findByEmail store p.email = .ok none →
      verifyJwt verify store token =
        .error (.authenticationError "User not found")) ∧
    (∀ p u, token ≠ "" → verify token = some p →
      UserRepository.findByEmail store p.email = .ok (some u) →
      u.isActive = false →
      verifyJwt verify store token =
        .error (.authenticationError "User account is inactive")) ∧
    (∀ p u, token ≠ "" → verify token = some p →
      UserRepository.findByEmail store p.email = .ok (some u) →
      u.isActive = true →
      verifyJwt verify store token = .ok ⟨u.id, u.role⟩) := by
  refine ⟨?_, ?_, ?_, ?_, ?_⟩
  · intro h
    rw [verifyJwt, if_pos h]
  · intro h hv
    simp [verifyJwt, h, hv]
  · intro p h hv hf
    simp [verifyJwt, h, hv, hf]
  · intro p u h hv hf hi
    simp [verifyJwt, h, hv, hf, hi]
  · intro p u h hv hf hi
    have hu : uuidValid u.id = true := findByEmail_ok_uuid store p.email u hf
    simp [verifyJwt, h, hv, hf, hi, decodeAuthContext, hu]

theorem resolver_rederives_role_from_storage_witness :
    verifyJwt (fun _ => some wPayload) [rowAnn] "tok" =
      .ok ⟨annId, .admin⟩ :=
  (resolver_rederives_role_from_storage (fun _ => some wPayload) [rowAnn]
    "tok").2.2.2.2 wPayload annUser (by decide) rfl (by rfl) rfl

/-- C3: the `withAuth` wrapper the HTTP handlers use provides the identical
hard-coded context (userId `550e8400-e29b-41d4-a716-446655440000`, role
`admin`) for any two non-empty tokens — the context depends neither on the
token's content nor on any signature, and `withAuth` consults no storage
(it is a function of the token alone) — while an empty token fails the
request. -/
theorem withAuth_token_independent (t1 t2 : String)
    (h1 : t1 ≠ "") (h2 : t2 ≠ "") :
    withAuth t1 = withAuth t2 ∧
    withAuth t1 = .ok ⟨"550e8400-e29b-41d4-a716-446655440000", .admin⟩ ∧
    withAuth "" = .error (.unauthorizedError "No token") := by
  have hc1 : withAuth t1 =
      .ok ⟨"550e8400-e29b-41d4-a716-446655440000", .admin⟩ := by
    rw [withAuth, if_neg h1]
    rfl
  have hc2 : withAuth t2 =
      .ok ⟨"550e8400-e29b-41d4-a716-446655440000", .admin⟩ := by
    rw [withAuth, if_neg h2]
    rfl
  exact ⟨hc1.trans hc2.symm, hc1, rfl⟩

theorem withAuth_token_independent_witness :
    withAuth "tokenA" = withAuth "tokenB" ∧
    withAuth "tokenA" =
      .ok ⟨"550e8400-e29b-41d4-a716-446655440000", .admin⟩ ∧
    withAuth "" = .error (.unauthorizedError "No token") :=
  withAuth_token_independent "tokenA" "tokenB" (by decide) (by decide)

/-- C4: `login` fails with the same generic "Invalid email or password"
`AuthenticationError` both when no user has the email and when the stored
hash does not match; an existing but inactive user gets the distinct
"User account is inactive" message; and a token is returned only when the
user exists, is active and the password matches (the token being the
signature of the stored id/email/role). -/
theorem login_generic_credential_errors
    (compare : String → String → Bool) (sign : JWTPayload → Option String)
    (store : List UserRow) (email password : String) :
    (UserRepository.findByEmail store email = .ok none →
      login compare sign store email password =
        .error (.authenticationError "Invalid email or password")) ∧
    (∀ u, UserRepository.findByEmail store email = .ok (some u) →
      u.isActive = true → compare password u.password = false →
      login compare sign store email password =
        .error (.authenticationError "Invalid email or password")) ∧
    (∀ u, UserRepository.findByEmail store email = .ok (some u) →
      u.isActive = false →
      login compare sign store email password =
        .error (.authenticationError "User account is inactive")) ∧
    (∀ t, login compare sign store email password = .ok t →
      ∃ u, UserRepository.findByEmail store email = .ok (some u) ∧
        u.isActive = true ∧ compare password u.password = true ∧
        sign ⟨u.id, u.email, u.role.str⟩ = some t) := by
  refine ⟨?_, ?_, ?_, ?_⟩
  · intro hf
    simp [login, hf]
  · intro u hf hi hc
    simp [login, hf, hi, hc]
  · intro u hf hi
    simp [login, hf, hi]
  · intro t h
    rw [login] at h
    cases hf : UserRepository.findByEmail store email with
    | error e => rw [hf] at h; exact absurd h (by simp)
    | ok o =>
        cases o with
        | none => rw [hf] at h; exact absurd h (by simp)
        | some u =>
            rw [hf] at h
            cases hi : u.isActive with
            | false => simp [hi] at h
            | true =>
                cases hc : compare password u.password with
                | false => simp [hi, hc] at h
                | true =>
                    simp only [hi, hc, Bool.not_true, Bool.false_eq_true,
                      if_false] at h
                    rw [generateToken] at h
                    cases hs : sign ⟨u.id, u.email, u.role.str⟩ with
                    | none => rw [hs] at h; exact absurd h (by simp)
                    | some tok =>
                        rw [hs] at h
                        have ht := Except.ok.inj h
                        exact ⟨u, rfl, hi, hc, ht ▸ hs⟩

theorem login_generic_credential_errors_witness :
    UserRepository.findByEmail [] "x@y.zz" = .ok none ∧
    login (fun _ _ => true) (fun _ => some "tok") [] "x@y.zz" "pw" =
      .error (.authenticationError "Invalid email or password") :=
  ⟨rfl,
    (login_generic_credential_errors (fun _ _ => true) (fun _ => some "tok")
      [] "x@y.zz" "pw").1 rfl⟩

/-- C5: `getUser` rejects a `user`-role caller asking for another user's id
with `ForbiddenError`; otherwise it fetches by id and an absent row is a
`NotFoundError`; on success the view kind is selected by the caller's role
alone (admin → FullView, user → BaseView, for every possible store, hence
never by the target record's own role) — and the `BaseUser` structure
carries no salary or ssn field at all. -/
theorem getUser_ownership_and_role_scoped_view
    (store : List UserRow) (targetId reqId : String) (role : RoleName) :
    (role = .user → reqId ≠ targetId →
      UserService.getUser store targetId role reqId =
        .error (.forbiddenError "Users can only view their own profile")) ∧
    (¬(role = .user ∧ reqId ≠ targetId) →
      store.find? (fun row => row.id = targetId) = none →
      UserService.getUser store targetId role reqId =
        .error (.notFoundError "User" targetId)) ∧
    (∀ v, UserService.getUser store targetId role reqId = .ok v →
      (role = .admin → ∃ fu, v = .full fu) ∧
      (role = .user → ∃ bu, v = .base bu)) := by
  refine ⟨?_, ?_, ?_⟩
  · intro hr hne
    subst hr
    simp [UserService.getUser, hne]
  · intro hnot hfind
    rw [UserService.getUser]
    split
    next hcond =>
        exfalso
        simp only [Bool.and_eq_true, decide_eq_true_eq] at hcond
        exact hnot hcond
    next =>
        rw [UserRepository.findById, hfind]
  · intro v h
    constructor
    · intro hr
      subst hr
      obtain ⟨row, hrow⟩ := getUser_ok_shape store targetId .admin reqId v h
      exact toUserByRole_admin_shape row v hrow
    · intro hr
      subst hr
      obtain ⟨row, hrow⟩ := getUser_ok_shape store targetId .user reqId v h
      exact toUserByRole_user_shape row v hrow

theorem getUser_ownership_witness :
    (RoleName.user = .user) ∧
    UserService.getUser [] "bob" .user "alice" =
      .error (.forbiddenError "Users can only view their own profile") :=
  ⟨rfl,
    (getUser_ownership_and_role_scoped_view [] "bob" "alice" .user).1 rfl
      (by decide)⟩

/-- C6: `updateSensitiveData` fails with ForbiddenError "Admin access
required" whenever the context role is not `admin`, for every target id —
including the caller's own id — and storage is reached (or a success
returned) only under role `admin`. -/
theorem updateSensitiveData_admin_gate
    (uid : String) (d : UpdateSensitiveData) (role : RoleName)
    (reqId : String) (db : Option Nat) :
    (role ≠ .admin →
      UserService.updateSensitiveData uid d role reqId db =
        (false, .error (.forbiddenError "Admin access required"))) ∧
    ((UserService.updateSensitiveData uid d role reqId db).1 = true →
      role = .admin) ∧
    (∀ b, (UserService.updateSensitiveData uid d role reqId db).2 = .ok b →
      role = .admin) := by
  refine ⟨?_, ?_, ?_⟩
  · intro h
    rw [UserService.updateSensitiveData, if_pos h]
  · intro h
    cases role with
    | admin => rfl
    | user => rw [UserService.updateSensitiveData] at h; simp at h
  · intro b h
    cases role with
    | admin => rfl
    | user => rw [UserService.updateSensitiveData] at h; simp at h

theorem updateSensitiveData_admin_gate_witness :
    (RoleName.user ≠ .admin) ∧
    UserService.updateSensitiveData "u1" ⟨none, none⟩ .user "u1" (some 1) =
      (false, .error (.forbiddenError "Admin access required")) :=
  ⟨by decide,
    (updateSensitiveData_admin_gate "u1" ⟨none, none⟩ .user "u1"
      (some 1)).1 (by decide)⟩

/-- C7 counterexample: a patch whose email violates the Validation Core
email pattern is accepted by the `UpdateUserProfile` decode (which imposes
no field rules) and reaches storage — `updateProfile` performs the database
call and returns true. -/
theorem updateProfile_unvalidated_patch_counterexample :
    specProfilePatchFieldRules ⟨none, some "not-an-email"⟩ = false ∧
    decodeUpdateUserProfile none (some "not-an-email") =
      some ⟨none, some "not-an-email"⟩ ∧
    UserService.updateProfile "u1" ⟨none, some "not-an-email"⟩ .admin "u1"
      (some 1) = (true, .ok true) :=
  ⟨by rfl, rfl, by rfl⟩

/-- C7 (amended): the patch is decoded only as optional unconstrained
strings (no email-pattern or name-length rule is applied before storage);
a patch with no truthy field returns false without any storage call, and
storage is reached only when some field is a present non-empty string. -/
theorem updateProfile_typed_decode_and_empty_patch
    (uid : String) (data : UpdateUserProfile) (role : RoleName)
    (reqId : String) (db : Option Nat) :
    (decodeUpdateUserProfile data.name data.email = some data) ∧
    ((data.name = none ∨ data.name = some "") →
      (data.email = none ∨ data.email = some "") →
      ¬(role = .user ∧ reqId ≠ uid) →
      UserService.updateProfile uid data role reqId db =
        (false, .ok false)) ∧
    ((UserService.updateProfile uid data role reqId db).1 = true →
      (∃ n, data.name = some n ∧ n ≠ "") ∨
        (∃ e, data.email = some e ∧ e ≠ "")) := by
  refine ⟨?_, ?_, ?_⟩
  · cases data
    rfl
  · intro hn he hnot
    rw [UserService.updateProfile]
    split
    next hcond =>
        exfalso
        simp only [Bool.and_eq_true, decide_eq_true_eq] at hcond
        exact hnot hcond
    next =>
        have hupd :
            UserRepository.profileUpdates data.name data.email = [] := by
          rcases hn with h | h <;> rcases he with h2 | h2 <;>
            simp [UserRepository.profileUpdates, h, h2]
        simp [UserRepository.update, hupd]
  · intro h1
    by_cases hn : data.name = none ∨ data.name = some ""
    · by_cases he : data.email = none ∨ data.email = some ""
      · exfalso
        have hupd :
            UserRepository.profileUpdates data.name data.email = [] := by
          rcases hn with h | h <;> rcases he with h2 | h2 <;>
            simp [UserRepository.profileUpdates, h, h2]
        rw [UserService.updateProfile] at h1
        split at h1
        · simp at h1
        · simp [UserRepository.update, hupd] at h1
      · right
        cases hde : data.email with
        | none => exact absurd (Or.inl hde) he
        | some e =>
            refine ⟨e, rfl, ?_⟩
            intro heq
            exact he (Or.inr (by rw [hde, heq]))
    · left
      cases hdn : data.name with
      | none => exact absurd (Or.inl hdn) hn
      | some n =>
          refine ⟨n, rfl, ?_⟩
          intro heq
          exact hn (Or.inr (by rw [hdn, heq]))

theorem updateProfile_typed_decode_witness :
    UserService.updateProfile "u1" ⟨none, none⟩ .admin "u1" none =
      (false, .ok false) :=
  (updateProfile_typed_decode_and_empty_patch "u1" ⟨none, none⟩ .admin "u1"
    none).2.1 (Or.inl rfl) (Or.inl rfl) (by decide)

/-- C8: the batch mapper maps each row in order (output index i is the
mapping of input index i), every element of a successful batch has the
view kind the requested role selects, and a single failing row fails the
whole batch with an error — no partial list is ever returned. -/
theorem batch_mapping_ordered_failfast (rows : List UserRow) (r : RoleName) :
    (∀ l, UserMapper.toUsersByRole rows r = .ok l →
      l.length = rows.length ∧
      (∀ i (h1 : i < rows.length) (h2 : i < l.length),
        UserMapper.toUserByRole (rows.get ⟨i, h1⟩) r =
          .ok (l.get ⟨i, h2⟩)) ∧
      (∀ v ∈ l, (∃ fu, v = .full fu) ↔ r = .admin)) ∧
    (∀ row e, row ∈ rows → UserMapper.toUserByRole row r = .error e →
      ∃ e2, UserMapper.toUsersByRole rows r = .error e2) := by
  constructor
  · intro l hl
    obtain ⟨hlen, hpt⟩ := toUsersByRole_ok_pointwise rows r l hl
    refine ⟨hlen, hpt, ?_⟩
    intro v hv
    obtain ⟨row, _, hrow⟩ := toUsersByRole_ok_mem rows r l hl v hv
    cases r with
    | admin => exact iff_of_true (toUserByRole_admin_shape row v hrow) rfl
    | user =>
        obtain ⟨bu, hbu⟩ := toUserByRole_user_shape row v hrow
        subst hbu
        constructor
        · rintro ⟨fu, hfu⟩
          exact absurd hfu (by simp)
        · intro hc
          exact absurd hc (by decide)
  · exact toUsersByRole_error_of_mem rows r

theorem batch_mapping_witness :
    UserMapper.toUserByRole rowBadRole .user =
      .error (.databaseError
        "Failed to map database row to BaseUser domain model") ∧
    ∃ e2, UserMapper.toUsersByRole [rowAnn, rowBadRole] .user = .error e2 :=
  ⟨by rfl,
    (batch_mapping_ordered_failfast [rowAnn, rowBadRole] .user).2 rowBadRole
      (.databaseError "Failed to map database row to BaseUser domain model")
      (by simp) (by rfl)⟩

/-- C9 counterexample: the stored salary string `""` does not parse as a
valid non-negative number, yet `toFullUser` succeeds and silently coerces
it to null (JS truthiness: the empty string is falsy) instead of failing
with a mapping error. -/
theorem salary_empty_string_silently_null :
    specValidNonNegNumeral "" = false ∧
    UserMapper.toFullUser rowEmptySalary = .ok fullAnn ∧
    fullAnn.salary = none :=
  ⟨rfl, by rfl, rfl⟩

/-- C9 (amended): a null or empty-string stored salary is silently mapped
to null; any other string goes through JS `parseFloat` (longest numeric
prefix, so trailing garbage is accepted); the mapping fails exactly when
that parse yields `NaN` or a negative value, and a successful mapping
carries the parsed value — never a coerced zero. -/
theorem salary_parse_policy (row : UserRow) :
    (∀ fu, (row.salary = none ∨ row.salary = some "") →
      UserMapper.toFullUser row = .ok fu → fu.salary = none) ∧
    (∀ s, row.salary = some s → s ≠ "" →
      ((parseFloatJS s).ge0 = false →
        UserMapper.toFullUser row =
          .error (.databaseError
            "Failed to map database row to FullUser domain model")) ∧
      (∀ fu, UserMapper.toFullUser row = .ok fu →
        fu.salary = some (parseFloatJS s) ∧ (parseFloatJS s).ge0 = true)) := by
  constructor
  · intro fu hnull
    have hsal : salaryInput row.salary = none := by
      rcases hnull with h | h <;> simp [salaryInput, h]
    cases hd : decodeBaseFields row with
    | none => simp [UserMapper.toFullUser, hd]
    | some b =>
        by_cases hs : decodeSensitive (salaryInput row.salary) row.ssn = true
        · simp only [UserMapper.toFullUser, hd, if_pos hs, Except.ok.injEq]
          intro hu
          rw [← hu]
          exact hsal
        · simp [UserMapper.toFullUser, hd, hs]
  · intro s hs hne
    have hsal : salaryInput row.salary = some (parseFloatJS s) := by
      simp [salaryInput, hs, hne]
    constructor
    · intro hbad
      have hdec : decodeSensitive (salaryInput row.salary) row.ssn = false := by
        rw [hsal]
        simp [decodeSensitive, hbad]
      cases hd : decodeBaseFields row with
      | none => simp [UserMapper.toFullUser, hd]
      | some b => simp [UserMapper.toFullUser, hd, hdec]
    · intro fu
      cases hd : decodeBaseFields row with
      | none => simp [UserMapper.toFullUser, hd]
      | some b =>
          by_cases hsen :
              decodeSensitive (salaryInput row.salary) row.ssn = true
          · simp only [UserMapper.toFullUser, hd, if_pos hsen,
              Except.ok.injEq]
            intro hu
            have hge : (parseFloatJS s).ge0 = true := by
              rw [hsal] at hsen
              simp [decodeSensitive] at hsen
              exact hsen.1
            refine ⟨?_, hge⟩
            rw [← hu]
            exact hsal
          · simp [UserMapper.toFullUser, hd, hsen]

theorem salary_parse_policy_witness :
    (parseFloatJS "abc").ge0 = false ∧
    UserMapper.toFullUser rowBadSalary =
      .error (.databaseError
        "Failed to map database row to FullUser domain model") :=
  ⟨by rfl,
    ((salary_parse_policy rowBadSalary).2 "abc" rfl (by decide)).1
      (by rfl)⟩

/-- C10: mapping a well-formed row for role `admin` gives a FullView whose
BaseView projection is exactly the BaseView obtained from mapping the same
row for role `user`; and the BaseView is a strict subset — two FullViews
differing only in a sensitive field share the same BaseView projection
(the `BaseUser` structure has no salary/ssn fields to distinguish them). -/
theorem roundtrip_base_subset :
    (∀ row fu, UserMapper.toUserByRole row .admin = .ok (.full fu) →
      UserMapper.toUserByRole row .user = .ok (.base fu.toBaseUser)) ∧
    (∃ f1 f2 : FullUser, f1.toBaseUser = f2.toBaseUser ∧ f1 ≠ f2) := by
  constructor
  · intro row fu h
    rw [UserMapper.toUserByRole, except_map_ok] at h
    obtain ⟨a, ha, hva⟩ := h
    have hafu : a = fu := by injection hva
    subst hafu
    have hb := toFullUser_ok_base row a ha
    rw [UserMapper.toUserByRole, UserMapper.toBaseUser, hb]
    rfl
  · exact ⟨⟨baseAnn, none, none⟩, ⟨baseAnn, none, some "123-45-6789"⟩,
      rfl, by decide⟩

theorem roundtrip_base_subset_witness :
    UserMapper.toUserByRole rowAnn .admin = .ok (.full fullAnn) ∧
    UserMapper.toUserByRole rowAnn .user = .ok (.base fullAnn.toBaseUser) :=
  ⟨by rfl, (roundtrip_base_subset).1 rowAnn fullAnn (by rfl)⟩

end Spec2Proof
